import Mathlib

/-!
Shallow embedding of the albumiser classification and deduplication engine
(src/albumiser.py): the per-file classification loop of `main`, the ledger
(sqlite table `images` with UNIQUE columns `hash` and `path`, inserts done
with `insert or ignore`), the fingerprint computation, the capture-time
resolution chain, destination-path computation, and the apply phase.

Modelling conventions:
* file bytes / preview bytes are `String`s (the script runs on Python 2 where
  `str` is a byte string; `sha256HexDigest` is applied both to file data and
  to path strings);
* SHA-256 is modelled as an injective digest function (a collision-free
  cryptographic hash): `fun s => "sha256:" ++ s`, which has exactly the
  collision structure of an ideal hash (equal inputs, equal digests);
* `datetime` values are a record of six `Nat` fields; `str(datetime)` and
  `strftime` are modelled character-for-character;
* `pyexiv2` metadata is a record holding the preview list, the file buffer
  and the four EXIF tags the script reads; a failed `metadata.read()`
  (`IOError` / `UnicodeDecodeError`) is an `Except.error` carrying `str(e)`.
-/

namespace Albumiser

/-- Decimal digits of a natural number, most significant first, computed with
structural fuel so the kernel can evaluate it.  Models Python `str(n)` for a
nonnegative integer (`decRepr`). -/
def decDigitsAux : Nat → Nat → List Char
  | 0, _ => []
  | fuel + 1, n =>
    if n < 10 then [Nat.digitChar n]
    else decDigitsAux fuel (n / 10) ++ [Nat.digitChar (n % 10)]

/-- Python `str(n)` for a nonnegative integer: decimal representation. -/
def decRepr (n : Nat) : String :=
  String.mk (decDigitsAux (n + 1) n)

/-- Python `'%02d' % n`: decimal, zero padded to width 2. -/
def pad2 (n : Nat) : String :=
  if n < 10 then "0" ++ decRepr n else decRepr n

/-- Python `'%04d' % n`: decimal, zero padded to width 4. -/
def pad4 (n : Nat) : String :=
  if n < 10 then "000" ++ decRepr n
  else if n < 100 then "00" ++ decRepr n
  else if n < 1000 then "0" ++ decRepr n
  else decRepr n

/-- A Python `datetime` value (second granularity, as produced by pyexiv2
for EXIF date tags). -/
structure PDateTime where
  year : Nat
  month : Nat
  day : Nat
  hour : Nat
  minute : Nat
  second : Nat
deriving DecidableEq, Repr

/-- Python `datetime(1970, 1, 1)`: the UNIX epoch sentinel used for undated
photos (src/albumiser.py line 297). -/
def epoch : PDateTime := ⟨1970, 1, 1, 0, 0, 0⟩

/-- Python `str(imd)` for a `datetime`: `YYYY-MM-DD HH:MM:SS`. -/
def pyStr (d : PDateTime) : String :=
  pad4 d.year ++ "-" ++ pad2 d.month ++ "-" ++ pad2 d.day ++ " " ++
    pad2 d.hour ++ ":" ++ pad2 d.minute ++ ":" ++ pad2 d.second

/-- Python `imd.strftime('%Y_%m_%d-%H_%M_%S')` (src/albumiser.py lines
308, 316, 320). -/
def fmtTS (d : PDateTime) : String :=
  pad4 d.year ++ "_" ++ pad2 d.month ++ "_" ++ pad2 d.day ++ "-" ++
    pad2 d.hour ++ "_" ++ pad2 d.minute ++ "_" ++ pad2 d.second

/-- The value of an EXIF tag as returned by pyexiv2: either a parsed
`datetime` or some other raw value (the script checks
`isinstance(imd, datetime)`, line 293). -/
inductive TagValue where
  | dt (d : PDateTime)
  | raw (s : String)
deriving DecidableEq, Repr

/-- The parts of a `pyexiv2.ImageMetadata` object the script reads after a
successful `metadata.read()`: the preview list (`metadata.previews`, each
preview contributing its `data` bytes, largest last), the raw image buffer
(`metadata.buffer`), and the four EXIF tags accessed by `main`. -/
structure Metadata where
  previews : List String
  buffer : String
  software : Option String
  dateTimeDigitized : Option TagValue
  dateTime : Option TagValue
  dateTimeOriginal : Option TagValue
deriving DecidableEq, Repr

/-- One file yielded by the tree walk: its directory, its name, its full
byte content, and the outcome of `pyexiv2.ImageMetadata(path).read()` —
`Except.error (str e)` models the `(IOError, UnicodeDecodeError)` branch of
src/albumiser.py lines 231-241. -/
structure SrcFile where
  dirpath : String
  filename : String
  content : String
  metadataResult : Except String Metadata
deriving Repr

/-- Python `os.path.join(dirpath, filename)` for the simple two-component
case used by the walk loop. -/
def pathJoin (a b : String) : String := a ++ "/" ++ b

/-- The full path of a walked file (src/albumiser.py line 219). -/
def SrcFile.path (f : SrcFile) : String := pathJoin f.dirpath f.filename

/-- Lowercase a string (ASCII, as applies to file extensions):
Python `s.lower()`. -/
def strLower (s : String) : String := String.mk (s.data.map Char.toLower)

/-- The extension part of Python `os.path.splitext(p)`: the suffix of the
last path component starting at its last dot, unless every character before
that dot is itself a dot (so `.bashrc` has no extension). -/
def splitextExt (p : String) : String :=
  let revBase := p.data.reverse.takeWhile (fun c => decide (c ≠ '/'))
  let afterDot := revBase.takeWhile (fun c => decide (c ≠ '.'))
  if afterDot.length = revBase.length then ""
  else
    let beforeDot := revBase.drop (afterDot.length + 1)
    if beforeDot.any (fun c => decide (c ≠ '.')) then
      String.mk ('.' :: afterDot.reverse)
    else ""

/-- src/albumiser.py line 21: note the second entry is `'jpeg'` with no
leading dot. -/
def IMAGE_EXT : List String := [".jpg", "jpeg", ".png"]

/-- src/albumiser.py lines 172-179: true when the lowercased extension is in
`IMAGE_EXT`. -/
def isPhoto (path : String) : Bool :=
  IMAGE_EXT.contains (strLower (splitextExt path))

/-- src/albumiser.py lines 181-186, `hashlib.sha256(indata).hexdigest()`,
modelled as an injective (collision-free) digest of the input bytes. -/
def sha256HexDigest (indata : String) : String := "sha256:" ++ indata

/-- The data fed to the digest for a file whose metadata was read
(src/albumiser.py lines 244-259): the largest preview's bytes when
`metadata.previews` is nonempty, otherwise `metadata.buffer`. -/
def fingerprintData (md : Metadata) : String :=
  if md.previews.length > 0 then md.previews.getLastD "" else md.buffer

/-- The fingerprint the script computes for a file: the digest of the
preview/buffer data when metadata was read, and — in the metadata-failure
branch of src/albumiser.py line 237 — the digest of the *path string*. -/
def fingerprint (f : SrcFile) : String :=
  match f.metadataResult with
  | .ok md => sha256HexDigest (fingerprintData md)
  | .error _ => sha256HexDigest f.path

/-- Python `s.startswith(p)` (byte-wise, case-sensitive). -/
def strStartsWith (s p : String) : Bool := p.data.isPrefixOf s.data

/-- src/albumiser.py lines 276-284: when `Exif.Image.Software` is present
and `software.startswith('f-spot')`, take `Exif.Photo.DateTimeDigitized`;
a missing tag raises `KeyError`, caught, leaving `imd = None`. -/
def resolveSoftwareQuirk (md : Metadata) : Option TagValue :=
  match md.software with
  | some s => if strStartsWith s "f-spot" then md.dateTimeDigitized else none
  | none => none

/-- src/albumiser.py lines 276-291: the resolved `imd` tag value before the
`isinstance(imd, datetime)` check: the software-quirk value when produced,
otherwise `Exif.Image.DateTime`, otherwise `Exif.Photo.DateTimeOriginal`. -/
def resolveCaptureTag (md : Metadata) : Option TagValue :=
  match resolveSoftwareQuirk md with
  | some v => some v
  | none =>
    match md.dateTime with
    | some v => some v
    | none => md.dateTimeOriginal

/-- One row of the sqlite `images` table (src/albumiser.py lines 196-204):
`hash text unique, path text unique, created text, destination text,
status text, error text`. -/
structure Row where
  hash : String
  path : String
  created : Option String
  destination : Option String
  status : String
  error : Option String
deriving DecidableEq, Repr

/-- Sqlite `insert or ignore` against the two UNIQUE columns `hash` and
`path`: the row is appended unless an existing row already holds its hash
or its path, in which case the insert is silently skipped.  No other column
(in particular `destination`) carries a uniqueness constraint. -/
def insertOrIgnore (db : List Row) (r : Row) : List Row :=
  if db.any (fun x => decide (x.hash = r.hash) || decide (x.path = r.path)) then db
  else db ++ [r]

/-- The run options consumed by the classification loop. -/
structure Options where
  target : String
  deleteDuplicates : Bool
deriving DecidableEq, Repr

/-- The mutable state of `main`'s classification loop: the `images` table,
the run-global `undated_counter` (line 211), and the files removed by
`os.remove` in the delete-duplicates branch (line 269). -/
structure RunState where
  db : List Row
  undated : Nat
  removed : List String
deriving DecidableEq, Repr

/-- The initial state: freshly created empty table, `undated_counter = 0`. -/
def initState : RunState := ⟨[], 0, []⟩

/-- The destination directory `target/YYYY/YYYY-MM/YYYY-MM-DD`
(src/albumiser.py lines 303-306; the first component is `str(imd.year)`,
unpadded). -/
def dstDirOf (target : String) (d : PDateTime) : String :=
  pathJoin (pathJoin (pathJoin target (decRepr d.year))
      (pad4 d.year ++ "-" ++ pad2 d.month))
    (pad4 d.year ++ "-" ++ pad2 d.month ++ "-" ++ pad2 d.day)

/-- The dated destination filename (src/albumiser.py lines 310-320): the
timestamp formatted to the second, with `.<count>` inserted before the
extension when `count` rows with the same `created` value already exist. -/
def datedFilename (d : PDateTime) (count : Nat) (ext : String) : String :=
  if count > 0 then fmtTS d ++ "." ++ decRepr count ++ ext
  else fmtTS d ++ ext

/-- The undated destination filename (src/albumiser.py lines 307-309):
`imd.strftime('%Y_%m_%d-%H_%M_%S-') + str(undated_counter) + ext` with
`imd` the epoch sentinel. -/
def undatedFilename (n : Nat) (ext : String) : String :=
  fmtTS epoch ++ "-" ++ decRepr n ++ ext

/-- One iteration of the classification loop of `main`
(src/albumiser.py lines 215-331) on a single walked file. -/
def processFile (opts : Options) (st : RunState) (f : SrcFile) : RunState :=
  let path := f.path
  let ext := strLower (splitextExt path)
  if ¬ isPhoto path then
    let row : Row := ⟨path, path, none, none, "IGNORE", some "non image file"⟩
    { st with db := insertOrIgnore st.db row }
  else
    match f.metadataResult with
    | .error e =>
      let row : Row := ⟨sha256HexDigest path, path, none, none, "FAILED", some e⟩
      { st with db := insertOrIgnore st.db row }
    | .ok md =>
      let digest := sha256HexDigest (fingerprintData md)
      if st.db.any (fun r => decide (r.hash = digest)) then
        if opts.deleteDuplicates then
          let row : Row := ⟨digest, path, none, none, "DUPLICATE", none⟩
          { st with db := insertOrIgnore st.db row,
                    removed := st.removed ++ [path] }
        else st
      else
        match resolveCaptureTag md with
        | some (TagValue.dt d) =>
          let count := st.db.countP (fun r => decide (r.created = some (pyStr d)))
          let dest := pathJoin (dstDirOf opts.target d) (datedFilename d count ext)
          let row : Row := ⟨digest, path, some (pyStr d), some dest, "READY", none⟩
          { st with db := insertOrIgnore st.db row }
        | _ =>
          let n := st.undated + 1
          let dest := pathJoin (dstDirOf opts.target epoch) (undatedFilename n ext)
          let row : Row := ⟨digest, path, some (pyStr epoch), some dest, "READY", none⟩
          { st with undated := n, db := insertOrIgnore st.db row }

/-- The whole classification pass: fold the loop body over the walked
files in order. -/
def runClassify (opts : Options) (files : List SrcFile) : RunState :=
  files.foldl (processFile opts) initState

/-- The `READY` rows selected for the apply phase
(src/albumiser.py line 336). -/
def readyRows (db : List Row) : List Row :=
  db.filter (fun r => decide (r.status = "READY"))

/-- The apply loop of src/albumiser.py lines 337-350, with the filesystem
outcome of each row's copy/move/symlink given by the oracle `act`.  The
loop body has no exception handling, so the first failing action propagates
out of `main`: the rows already applied are returned together with the
error, and the remaining rows are never attempted. -/
def applyGo (act : Row → Except String Unit) : List Row → List Row × Option String
  | [] => ([], none)
  | r :: rs =>
    match act r with
    | .ok _ =>
      let rest := applyGo act rs
      (r :: rest.1, rest.2)
    | .error e => ([], some e)

/-- The apply phase over a finished ledger. -/
def applyPhase (db : List Row) (act : Row → Except String Unit) :
    List Row × Option String :=
  applyGo act (readyRows db)

/-- The full undated destination path as computed by the undated branch of
`processFile`: date directory for the epoch, then the undated filename. -/
def undatedDest (target : String) (n : Nat) (ext : String) : String :=
  pathJoin (dstDirOf target epoch) (undatedFilename n ext)

/-- Modelled from the spec: the undated filename form
`<epoch-formatted-timestamp>_<undated-sequence-counter><ext>` asserted by
the specification (section 4.3 step 6), with an underscore between the
formatted timestamp and the counter.  Kept separate from the
source-derived `undatedFilename` for comparison. -/
def specUndatedFilename (n : Nat) (ext : String) : String :=
  fmtTS epoch ++ "_" ++ decRepr n ++ ext

/-- Decode a list of decimal digit characters back to the number
(left fold, most significant first): the inverse of `decDigitsAux`. -/
def decodeDec (l : List Char) : Nat :=
  l.foldl (fun a c => a * 10 + (c.toNat - 48)) 0

/-- The ledger invariant relating `created` and `status`: every row with a
non-null `created` column has status `READY` (only the two `READY` insert
sites of the loop pass a non-null `created`). -/
def CreatedReady (db : List Row) : Prop :=
  ∀ r ∈ db, r.created ≠ none → r.status = "READY"

/-! Concrete sample data used by witnesses and counterexamples. -/

/-- A capture timestamp used in examples (the burst-shot second from the
repository's own test image names). -/
def tsA : PDateTime := ⟨2012, 4, 9, 15, 15, 18⟩

/-- A second, distinct capture timestamp used in examples. -/
def tsB : PDateTime := ⟨2020, 1, 2, 3, 4, 5⟩

/-- Metadata with no previews, no software tag, and a given
`Exif.Image.DateTime` tag value. -/
def mdPlain (buf : String) (tag : Option TagValue) : Metadata :=
  ⟨[], buf, none, none, tag, none⟩

/-- Metadata naming Picasa as the recording software, whose digitized tag
(`tsB`) differs from its original and modified tags (`tsA`). -/
def mdPicasa : Metadata :=
  ⟨[], "PICASABYTES", some "Picasa 3.9",
    some (TagValue.dt tsB), some (TagValue.dt tsA), some (TagValue.dt tsA)⟩

/-- Metadata carrying both a generic modified tag (`tsA`) and an original
capture tag (`tsB`), with no software tag. -/
def mdBoth : Metadata :=
  ⟨[], "BOTHBYTES", none, none, some (TagValue.dt tsA), some (TagValue.dt tsB)⟩

/-- A dated photo. -/
def fDatedA : SrcFile :=
  ⟨"src", "a.jpg", "CONTENTA", .ok (mdPlain "CONTENTA" (some (TagValue.dt tsA)))⟩

/-- A byte-identical copy of `fDatedA` at a different path. -/
def fDatedA2 : SrcFile :=
  ⟨"src", "b.jpg", "CONTENTA", .ok (mdPlain "CONTENTA" (some (TagValue.dt tsA)))⟩

/-- A distinct photo resolving to the same capture second as `fDatedA`. -/
def fDatedB : SrcFile :=
  ⟨"src", "c.jpg", "CONTENTB", .ok (mdPlain "CONTENTB" (some (TagValue.dt tsA)))⟩

/-- A third distinct photo resolving to the same capture second. -/
def fDatedC : SrcFile :=
  ⟨"src", "d.jpg", "CONTENTC", .ok (mdPlain "CONTENTC" (some (TagValue.dt tsA)))⟩

/-- An undated photo (no capture tags at all). -/
def fUndatedA : SrcFile :=
  ⟨"src", "u1.jpg", "UBYTES1", .ok (mdPlain "UBYTES1" none)⟩

/-- A second, distinct undated photo. -/
def fUndatedB : SrcFile :=
  ⟨"src", "u2.png", "UBYTES2", .ok (mdPlain "UBYTES2" none)⟩

/-- A readable photo with the same byte content as `fBadMeta`. -/
def fGoodMeta : SrcFile :=
  ⟨"src", "good.jpg", "JPEGBYTES",
    .ok (mdPlain "JPEGBYTES" (some (TagValue.dt tsB)))⟩

/-- A photo whose metadata read fails with an I/O error. -/
def fBadMeta : SrcFile :=
  ⟨"src", "bad.jpg", "JPEGBYTES", .error "IOError: unable to read"⟩

/-- A byte-identical copy of `fBadMeta` at a different path, also
unreadable. -/
def fBadMeta2 : SrcFile :=
  ⟨"other", "bad2.jpg", "JPEGBYTES", .error "IOError: unable to read"⟩

/-- Record-only duplicate handling (the default). -/
def optsRecord : Options := ⟨"t", false⟩

/-- Delete-duplicates handling. -/
def optsDelete : Options := ⟨"t", true⟩

/-- A READY ledger row used in apply-phase examples. -/
def rowApplyA : Row :=
  ⟨"sha256:A", "src/a.jpg", some "2012-04-09 15:15:18",
    some "t/2012/2012-04/2012-04-09/a.jpg", "READY", none⟩

/-- A second READY ledger row used in apply-phase examples. -/
def rowApplyB : Row :=
  ⟨"sha256:B", "src/b.jpg", some "2012-04-09 15:15:19",
    some "t/2012/2012-04/2012-04-09/b.jpg", "READY", none⟩

/-- A filesystem-action oracle that fails on `src/a.jpg` (say the
destination became unwritable) and succeeds on everything else. -/
def actFailA : Row → Except String Unit := fun r =>
  if r.path = "src/a.jpg" then .error "disk full" else .ok ()

/-! Decimal representation round trip: `decodeDec` inverts `decDigitsAux`,
so `decRepr` (Python `str` on a nonnegative integer) is injective. -/

theorem decodeDec_append_digit (l : List Char) (c : Char) :
    decodeDec (l ++ [c]) = decodeDec l * 10 + (c.toNat - 48) := by
  unfold decodeDec
  rw [List.foldl_append]
  rfl

theorem digitChar_val {m : Nat} (h : m < 10) : (Nat.digitChar m).toNat - 48 = m := by
  interval_cases m <;> rfl

theorem decDigitsAux_decode :
    ∀ (fuel n : Nat), n < 10 ^ fuel → decodeDec (decDigitsAux fuel n) = n := by
  intro fuel
  induction fuel with
  | zero =>
    intro n hn
    simp only [pow_zero, Nat.lt_one_iff] at hn
    subst hn
    rfl
  | succ fuel ih =>
    intro n hn
    by_cases h : n < 10
    · simp only [decDigitsAux, if_pos h]
      show decodeDec [Nat.digitChar n] = n
      unfold decodeDec
      simp [List.foldl, digitChar_val h]
    · simp only [decDigitsAux, if_neg h]
      rw [decodeDec_append_digit, ih (n / 10), digitChar_val (Nat.mod_lt n (by norm_num))]
      · omega
      · rw [pow_succ, Nat.mul_comm] at hn
        exact Nat.div_lt_of_lt_mul hn

theorem decRepr_data_inj {n m : Nat} (h : (decRepr n).data = (decRepr m).data) :
    n = m := by
  have hb : ∀ k : Nat, k < 10 ^ (k + 1) := by
    intro k
    calc k < 10 ^ k := Nat.lt_pow_self (by norm_num) k
    _ ≤ 10 ^ (k + 1) := Nat.pow_le_pow_right (by norm_num) (Nat.le_succ k)
  have hdec := congrArg decodeDec h
  simpa [decRepr, decDigitsAux_decode _ _ (hb n), decDigitsAux_decode _ _ (hb m)]
    using hdec

theorem decRepr_inj {n m : Nat} (h : decRepr n = decRepr m) : n = m :=
  decRepr_data_inj (congrArg String.data h)

/-! Basic lemmas about ledger inserts. -/

theorem insertOrIgnore_fresh {db : List Row} {r : Row}
    (hh : ∀ x ∈ db, x.hash ≠ r.hash) (hp : ∀ x ∈ db, x.path ≠ r.path) :
    insertOrIgnore db r = db ++ [r] := by
  unfold insertOrIgnore
  rw [if_neg]
  intro hc
  rcases List.any_eq_true.mp hc with ⟨x, hx, hpred⟩
  rcases Bool.or_eq_true_iff.mp hpred with h | h
  · exact hh x hx (of_decide_eq_true h)
  · exact hp x hx (of_decide_eq_true h)

theorem insertOrIgnore_hashDup {db : List Row} {r x : Row}
    (hx : x ∈ db) (h : x.hash = r.hash) : insertOrIgnore db r = db := by
  unfold insertOrIgnore
  rw [if_pos]
  exact List.any_eq_true.mpr ⟨x, hx, by simp [h]⟩

theorem mem_insertOrIgnore {db : List Row} {r y : Row}
    (h : y ∈ insertOrIgnore db r) : y ∈ db ∨ y = r := by
  unfold insertOrIgnore at h
  split at h
  · exact Or.inl h
  · simpa using h

/-! The `created`/`READY` ledger invariant holds for every state reachable
by the classification loop. -/

theorem createdReady_insertOrIgnore {db : List Row} {r : Row}
    (h : CreatedReady db) (hr : r.created = none ∨ r.status = "READY") :
    CreatedReady (insertOrIgnore db r) := by
  intro y hy hc
  rcases mem_insertOrIgnore hy with hmem | rfl
  · exact h y hmem hc
  · rcases hr with h0 | h0
    · exact absurd h0 hc
    · exact h0

theorem createdReady_processFile (o : Options) (st : RunState) (f : SrcFile)
    (h : CreatedReady st.db) : CreatedReady (processFile o st f).db := by
  unfold processFile
  dsimp only
  repeat' first
    | exact h
    | exact createdReady_insertOrIgnore h (Or.inl rfl)
    | exact createdReady_insertOrIgnore h (Or.inr rfl)
    | split

theorem createdReady_foldl (o : Options) (files : List SrcFile) :
    ∀ st : RunState, CreatedReady st.db →
      CreatedReady ((List.foldl (processFile o) st files).db) := by
  induction files with
  | nil => intro st h; exact h
  | cons f fs ih =>
    intro st h
    exact ih _ (createdReady_processFile o st f h)

theorem createdReady_runClassify (o : Options) (files : List SrcFile) :
    CreatedReady (runClassify o files).db := by
  apply createdReady_foldl
  intro r hr
  simp [initState] at hr

/-! The run-global undated counter never decreases. -/

theorem undated_le_processFile (o : Options) (st : RunState) (f : SrcFile) :
    st.undated ≤ (processFile o st f).undated := by
  unfold processFile
  dsimp only
  repeat' first
    | exact Nat.le_refl _
    | exact Nat.le_succ _
    | split

theorem undated_le_foldl (o : Options) (files : List SrcFile) :
    ∀ st : RunState, st.undated ≤ (List.foldl (processFile o) st files).undated := by
  induction files with
  | nil => intro st; exact Nat.le_refl _
  | cons f fs ih =>
    intro st
    exact Nat.le_trans (undated_le_processFile o st f) (ih _)

/-! Characterization of one loop iteration in each branch. -/

theorem processFile_dated (o : Options) (st : RunState) (f : SrcFile)
    (md : Metadata) (d : PDateTime)
    (hphoto : isPhoto f.path = true)
    (hmd : f.metadataResult = Except.ok md)
    (hres : resolveCaptureTag md = some (TagValue.dt d))
    (hfresh : ∀ x ∈ st.db, x.hash ≠ sha256HexDigest (fingerprintData md))
    (hpath : ∀ x ∈ st.db, x.path ≠ f.path) :
    processFile o st f = { st with db := st.db ++
      [⟨sha256HexDigest (fingerprintData md), f.path, some (pyStr d),
        some (pathJoin (dstDirOf o.target d)
          (datedFilename d
            (st.db.countP fun r => decide (r.created = some (pyStr d)))
            (strLower (splitextExt f.path)))),
        "READY", none⟩] } := by
  have hany : (st.db.any fun r =>
      decide (r.hash = sha256HexDigest (fingerprintData md))) = false := by
    simp only [List.any_eq_false, decide_eq_true_eq]
    exact hfresh
  simp only [processFile, hmd, hphoto, hres, hany, not_true_eq_false, if_false,
    Bool.false_eq_true, ite_false]
  rw [insertOrIgnore_fresh hfresh hpath]

theorem processFile_undated (o : Options) (st : RunState) (f : SrcFile)
    (md : Metadata)
    (hphoto : isPhoto f.path = true)
    (hmd : f.metadataResult = Except.ok md)
    (hres : ∀ d : PDateTime, resolveCaptureTag md ≠ some (TagValue.dt d))
    (hfresh : ∀ x ∈ st.db, x.hash ≠ sha256HexDigest (fingerprintData md))
    (hpath : ∀ x ∈ st.db, x.path ≠ f.path) :
    processFile o st f = { st with
      undated := st.undated + 1,
      db := st.db ++
        [⟨sha256HexDigest (fingerprintData md), f.path, some (pyStr epoch),
          some (undatedDest o.target (st.undated + 1) (strLower (splitextExt f.path))),
          "READY", none⟩] } := by
  have hany : (st.db.any fun r =>
      decide (r.hash = sha256HexDigest (fingerprintData md))) = false := by
    simp only [List.any_eq_false, decide_eq_true_eq]
    exact hfresh
  simp only [processFile, hmd, hphoto, hany, not_true_eq_false, if_false,
    Bool.false_eq_true, ite_false, undatedDest]
  rcases hcap : resolveCaptureTag md with _ | v
  · rw [insertOrIgnore_fresh hfresh hpath]
  · rcases v with d | s
    · exact absurd hcap (hres d)
    · rw [insertOrIgnore_fresh hfresh hpath]

theorem processFile_dup (o : Options) (st : RunState) (f : SrcFile)
    (md : Metadata) (x : Row)
    (hphoto : isPhoto f.path = true)
    (hmd : f.metadataResult = Except.ok md)
    (hx : x ∈ st.db) (hdup : x.hash = sha256HexDigest (fingerprintData md)) :
    processFile o st f = { st with
      removed := if o.deleteDuplicates then st.removed ++ [f.path] else st.removed } := by
  have hany : (st.db.any fun r =>
      decide (r.hash = sha256HexDigest (fingerprintData md))) = true :=
    List.any_eq_true.mpr ⟨x, hx, by simp [hdup]⟩
  have hioi : insertOrIgnore st.db
      ⟨sha256HexDigest (fingerprintData md), f.path, none, none, "DUPLICATE", none⟩ =
      st.db := insertOrIgnore_hashDup hx hdup
  simp only [processFile, hmd, hphoto, hany, not_true_eq_false, if_false,
    Bool.false_eq_true, ite_false, ite_true, hioi]
  by_cases hdd : o.deleteDuplicates
  · simp [hdd]
  · simp [hdd]

theorem splitextExt_shape (p : String) :
    splitextExt p = "" ∨ ∃ l, splitextExt p = String.mk ('.' :: l) := by
  unfold splitextExt
  dsimp only
  split
  · exact Or.inl rfl
  · split
    · exact Or.inr ⟨_, rfl⟩
    · exact Or.inl rfl

theorem strLower_dotted (l : List Char) :
    strLower (String.mk ('.' :: l)) = String.mk ('.' :: l.map Char.toLower) := by
  have h : Char.toLower '.' = '.' := by decide
  simp [strLower, h]

theorem isPhoto_ext {p : String} (h : isPhoto p = true) :
    strLower (splitextExt p) = ".jpg" ∨ strLower (splitextExt p) = ".png" := by
  have hmem : strLower (splitextExt p) ∈ [".jpg", "jpeg", ".png"] := by
    simpa [isPhoto, IMAGE_EXT, List.contains] using h
  simp only [List.mem_cons, List.not_mem_nil, or_false] at hmem
  rcases hmem with h1 | h1 | h1
  · exact Or.inl h1
  · exfalso
    rcases splitextExt_shape p with h0 | ⟨l, hl⟩
    · rw [h0] at h1
      exact absurd h1 (by decide)
    · rw [hl, strLower_dotted] at h1
      have hd : '.' :: l.map Char.toLower = ['j', 'p', 'e', 'g'] :=
        congrArg String.data h1
      injection hd with h2 h3
      exact absurd h2 (by decide)
  · exact Or.inr h1

theorem undatedDest_eqn (t : String) (n : Nat) (e : String) :
    undatedDest t n e =
      t ++ ("/1970/1970-01/1970-01-01/1970_01_01-00_00_00-" ++ (decRepr n ++ e)) := by
  unfold undatedDest dstDirOf undatedFilename pathJoin
  apply String.ext
  simp only [String.data_append, List.append_assoc]
  generalize (decRepr n).data = L
  generalize e.data = E
  simp only [List.append_cancel_left_eq]
  simp only [← List.append_assoc]
  simp only [List.append_cancel_right_eq]
  decide

theorem sha256HexDigest_inj {a b : String}
    (h : sha256HexDigest a = sha256HexDigest b) : a = b := by
  unfold sha256HexDigest at h
  have hd := congrArg String.data h
  simp only [String.data_append] at hd
  exact String.ext (List.append_cancel_left hd)

theorem undatedDest_inj {t e1 e2 : String} {n1 n2 : Nat}
    (he1 : e1 = ".jpg" ∨ e1 = ".png") (he2 : e2 = ".jpg" ∨ e2 = ".png")
    (h : undatedDest t n1 e1 = undatedDest t n2 e2) : n1 = n2 := by
  rw [undatedDest_eqn, undatedDest_eqn] at h
  have hd := congrArg String.data h
  simp only [String.data_append] at hd
  have hd2 := List.append_cancel_left (List.append_cancel_left hd)
  have hlen : e1.data.length = e2.data.length := by
    rcases he1 with rfl | rfl <;> rcases he2 with rfl | rfl <;> rfl
  exact decRepr_data_inj (List.append_inj' hd2 hlen).1

theorem processFile_failed (o : Options) (st : RunState) (f : SrcFile)
    (e : String)
    (hphoto : isPhoto f.path = true)
    (hmd : f.metadataResult = Except.error e)
    (hfresh : ∀ x ∈ st.db, x.hash ≠ sha256HexDigest f.path)
    (hpath : ∀ x ∈ st.db, x.path ≠ f.path) :
    processFile o st f = { st with db := st.db ++
      [⟨sha256HexDigest f.path, f.path, none, none, "FAILED", some e⟩] } := by
  simp only [processFile, hmd, hphoto, not_true_eq_false, if_false]
  rw [insertOrIgnore_fresh hfresh hpath]

/-! Claim theorems. -/

/-- C4 counterexample: on metadata carrying both a well-formed
`Exif.Image.DateTime` (the generic image-modified tag, value `tsA`) and a
well-formed `Exif.Photo.DateTimeOriginal` (the original-capture tag, value
`tsB`), with no software quirk in play, the resolver returns the
image-modified tag's value, not the original-capture tag's value — the
code tries `Exif.Image.DateTime` first (src/albumiser.py lines 287-289),
refuting the claimed order. -/
theorem capture_order_cex :
    mdBoth.dateTime = some (TagValue.dt tsA) ∧
    mdBoth.dateTimeOriginal = some (TagValue.dt tsB) ∧
    tsA ≠ tsB ∧
    resolveCaptureTag mdBoth = some (TagValue.dt tsA) ∧
    resolveCaptureTag mdBoth ≠ some (TagValue.dt tsB) := by
  refine ⟨rfl, rfl, by decide, by decide, by decide⟩

/-- C4 (amended): when the software-quirk rule does not apply, the capture
timestamp is resolved by trying the generic image-modified tag
(`Exif.Image.DateTime`) FIRST and the original-capture tag
(`Exif.Photo.DateTimeOriginal`) second: whenever both are present with
well-formed distinct values, the resolved capture tag equals the
image-modified tag's value, not the original-capture tag's value. -/
theorem capture_time_prefers_modified_tag (md : Metadata) (t1 t2 : PDateTime)
    (hq : resolveSoftwareQuirk md = none)
    (h1 : md.dateTime = some (TagValue.dt t1))
    (h2 : md.dateTimeOriginal = some (TagValue.dt t2))
    (hne : t1 ≠ t2) :
    resolveCaptureTag md = some (TagValue.dt t1) ∧
    resolveCaptureTag md ≠ some (TagValue.dt t2) := by
  have h : resolveCaptureTag md = some (TagValue.dt t1) := by
    simp [resolveCaptureTag, hq, h1]
  refine ⟨h, ?_⟩
  rw [h]
  intro hc
  injection hc with hv
  injection hv with hd
  exact hne hd

/-- C4 witness: the amended theorem applied to `mdBoth`. -/
theorem capture_time_prefers_modified_tag_witness :
    resolveCaptureTag mdBoth = some (TagValue.dt tsA) ∧
    resolveCaptureTag mdBoth ≠ some (TagValue.dt tsB) :=
  capture_time_prefers_modified_tag mdBoth tsA tsB (by decide) rfl rfl (by decide)

/-- C5 counterexample: metadata whose software tag is `"Picasa 3.9"` and
whose digitized tag (`tsB`) differs from its original tag (`tsA`) does NOT
resolve to the digitized value: the code only matches software values
starting, case-sensitively, with `'f-spot'` (src/albumiser.py line 279),
so Picasa metadata falls through to the ordinary tag chain. -/
theorem picasa_quirk_cex :
    mdPicasa.software = some "Picasa 3.9" ∧
    mdPicasa.dateTimeDigitized = some (TagValue.dt tsB) ∧
    mdPicasa.dateTimeOriginal = some (TagValue.dt tsA) ∧
    tsB ≠ tsA ∧
    resolveCaptureTag mdPicasa ≠ some (TagValue.dt tsB) := by
  refine ⟨rfl, rfl, rfl, by decide, by decide⟩

/-- C5 (amended): the software-quirk rule matches only software values
starting with the case-sensitive literal `'f-spot'` (not a case-insensitive
substring match against a known-bad-software list — `"Picasa 3.9"` is not
matched).  For every metadata object whose software tag starts with
`'f-spot'` and whose digitized tag is a well-formed timestamp differing
from the original tag, the resolved capture tag equals the digitized
value, not the original value. -/
theorem fspot_quirk_prefers_digitized (md : Metadata) (s : String)
    (dd od : PDateTime)
    (hs : md.software = some s)
    (hsw : strStartsWith s "f-spot" = true)
    (hd : md.dateTimeDigitized = some (TagValue.dt dd))
    (ho : md.dateTimeOriginal = some (TagValue.dt od))
    (hne : dd ≠ od) :
    resolveCaptureTag md = some (TagValue.dt dd) ∧
    resolveCaptureTag md ≠ some (TagValue.dt od) := by
  have hq : resolveSoftwareQuirk md = some (TagValue.dt dd) := by
    simp [resolveSoftwareQuirk, hs, hsw, hd]
  have h : resolveCaptureTag md = some (TagValue.dt dd) := by
    simp [resolveCaptureTag, hq]
  refine ⟨h, ?_⟩
  rw [h]
  intro hc
  injection hc with hv
  injection hv with hdd
  exact hne hdd

/-- C5 witness: the amended theorem applied to concrete f-spot metadata. -/
theorem fspot_quirk_prefers_digitized_witness :
    resolveCaptureTag
        ⟨[], "FB", some "f-spot 0.8.2", some (TagValue.dt tsB),
          some (TagValue.dt tsA), some (TagValue.dt tsA)⟩ =
      some (TagValue.dt tsB) ∧
    resolveCaptureTag
        ⟨[], "FB", some "f-spot 0.8.2", some (TagValue.dt tsB),
          some (TagValue.dt tsA), some (TagValue.dt tsA)⟩ ≠
      some (TagValue.dt tsA) :=
  fspot_quirk_prefers_digitized _ "f-spot 0.8.2" tsB tsA rfl (by decide)
    rfl rfl (by decide)

/-- C8: the extension allow-list as implemented cannot accept `.jpeg`
files: `IMAGE_EXT` lists its second entry as `'jpeg'` with no leading dot,
and a `splitext` extension always starts with a dot, so `photo.JPEG` and
`photo.jpeg` are rejected (classified IGNORE) while `.jpg`/`.png` are
accepted case-insensitively — the code diverges from the claimed
allow-list on the `.jpeg` member. -/
theorem jpeg_extension_rejected :
    IMAGE_EXT = [".jpg", "jpeg", ".png"] ∧
    isPhoto "photo.JPEG" = false ∧
    isPhoto "photo.jpeg" = false ∧
    isPhoto "photo.jpg" = true ∧
    isPhoto "photo.JPG" = true ∧
    isPhoto "photo.PNG" = true ∧
    isPhoto "photo.txt" = false ∧
    (processFile optsRecord initState
        ⟨"src", "photo.JPEG", "BYTES", .ok (mdPlain "BYTES" none)⟩).db =
      [⟨"src/photo.JPEG", "src/photo.JPEG", none, none, "IGNORE",
        some "non image file"⟩] := by
  refine ⟨rfl, by decide, by decide, by decide, by decide, by decide,
    by decide, by decide⟩

/-- C2 counterexample: two byte-identical files (same `content` bytes,
`"JPEGBYTES"`) do NOT always get the same fingerprint: when the metadata
read fails, the code digests the path string instead of the file content
(src/albumiser.py line 237, `sha256HexDigest(path)`), so a readable copy
and an unreadable copy of the same bytes — and likewise two unreadable
copies at different paths — produce different digests. -/
theorem fingerprint_path_dependent_cex :
    fGoodMeta.content = fBadMeta.content ∧
    fingerprint fGoodMeta ≠ fingerprint fBadMeta ∧
    fBadMeta.content = fBadMeta2.content ∧
    fingerprint fBadMeta ≠ fingerprint fBadMeta2 := by
  decide

/-- C2 (amended): the fingerprint is a function of file content alone only
for files whose metadata read succeeds: it digests the embedded preview
bytes (largest preview) or the raw image buffer, both determined by the
file bytes, independent of path or name.  When the metadata read fails the
computed fingerprint digests the source path string instead, so it is not
content-determined. -/
theorem fingerprint_content_determined_when_readable
    (f1 f2 : SrcFile) (md1 md2 : Metadata)
    (h1 : f1.metadataResult = Except.ok md1)
    (h2 : f2.metadataResult = Except.ok md2)
    (hprev : md1.previews = md2.previews)
    (hbuf : md1.buffer = md2.buffer) :
    fingerprint f1 = fingerprint f2 := by
  simp [fingerprint, h1, h2, fingerprintData, hprev, hbuf]

/-- C2 witness: byte-identical readable files at two different paths get
the same fingerprint. -/
theorem fingerprint_content_determined_when_readable_witness :
    fingerprint fDatedA = fingerprint fDatedA2 :=
  fingerprint_content_determined_when_readable fDatedA fDatedA2
    (mdPlain "CONTENTA" (some (TagValue.dt tsA)))
    (mdPlain "CONTENTA" (some (TagValue.dt tsA))) rfl rfl rfl rfl

/-- C3 counterexample: for a file whose metadata read fails, the recorded
fingerprint is the digest of the path string, not of the file content, and
a byte-identical copy processed later in the same run is NOT recognized as
a duplicate: it is recorded as a second FAILED row with a different hash
and the run produces no DUPLICATE classification. -/
theorem failed_fingerprint_not_content_cex :
    (runClassify optsRecord [fBadMeta, fBadMeta2]).db.map
        (fun r => (r.hash, r.status)) =
      [(sha256HexDigest "src/bad.jpg", "FAILED"),
        (sha256HexDigest "other/bad2.jpg", "FAILED")] ∧
    sha256HexDigest "src/bad.jpg" ≠ sha256HexDigest fBadMeta.content ∧
    fBadMeta.content = fBadMeta2.content ∧
    (runClassify optsRecord [fBadMeta, fBadMeta2]).db.countP
        (fun r => decide (r.status = "DUPLICATE")) = 0 := by
  decide

/-- C3 (amended): for every file whose metadata read fails with an I/O or
decode error, the engine records a ledger entry with status FAILED carrying
the underlying error message and no destination — but the fingerprint
recorded for that entry is the SHA-256 of the source *path string*, which
differs from the digest of the file's content whenever the path differs
from the content, so a byte-identical copy at another path is not matched
by it. -/
theorem failed_row_records_path_digest (o : Options) (st : RunState)
    (f : SrcFile) (e : String)
    (hphoto : isPhoto f.path = true)
    (hmd : f.metadataResult = Except.error e)
    (hfresh : ∀ x ∈ st.db, x.hash ≠ sha256HexDigest f.path)
    (hpath : ∀ x ∈ st.db, x.path ≠ f.path)
    (hne : f.path ≠ f.content) :
    (processFile o st f).db = st.db ++
      [⟨sha256HexDigest f.path, f.path, none, none, "FAILED", some e⟩] ∧
    sha256HexDigest f.path ≠ sha256HexDigest f.content := by
  constructor
  · rw [processFile_failed o st f e hphoto hmd hfresh hpath]
  · intro hc
    exact hne (sha256HexDigest_inj hc)

/-- C3 witness: the amended theorem applied to `fBadMeta` on the empty
initial ledger. -/
theorem failed_row_records_path_digest_witness :
    (processFile optsRecord initState fBadMeta).db =
      initState.db ++
        [⟨sha256HexDigest fBadMeta.path, fBadMeta.path, none, none, "FAILED",
          some "IOError: unable to read"⟩] ∧
    sha256HexDigest fBadMeta.path ≠ sha256HexDigest fBadMeta.content :=
  failed_row_records_path_digest optsRecord initState fBadMeta
    "IOError: unable to read" (by decide) rfl
    (by intro x hx; simp [initState] at hx)
    (by intro x hx; simp [initState] at hx)
    (by decide)

/-- C1 counterexample: two files with equal fingerprints in one run —
`fDatedA` and its byte-identical copy `fDatedA2`.  In the record-only
configuration the duplicate branch performs no insert at all; in the
delete-duplicates configuration the attempted DUPLICATE insert is ignored
because the fingerprint column is UNIQUE and the first row already holds
that fingerprint.  In both configurations the final ledger holds exactly
one entry (the READY one) and no DUPLICATE entry; in delete mode the
duplicate source is removed from disk. -/
theorem duplicate_row_never_recorded_cex :
    fingerprint fDatedA = fingerprint fDatedA2 ∧
    (runClassify optsRecord [fDatedA, fDatedA2]).db.map (fun r => r.status) =
      ["READY"] ∧
    (runClassify optsDelete [fDatedA, fDatedA2]).db.map (fun r => r.status) =
      ["READY"] ∧
    (runClassify optsDelete [fDatedA, fDatedA2]).removed = [fDatedA2.path] := by
  decide

/-- C1 (amended): for every pair of files in one run whose computed
fingerprints are equal, only the first obtains a ledger entry (READY when
it classifies successfully); the second is recognized as a duplicate and
gets NO ledger entry in either duplicate-handling configuration: in
record-only mode no insert is attempted, and in delete-duplicates mode the
attempted DUPLICATE insert is a no-op (UNIQUE fingerprint column plus
`insert or ignore`) and the source file is deleted.  Formally: processing
a photo whose fingerprint already occurs in the ledger leaves the ledger
unchanged, and changes the removed-files list exactly when
delete-duplicates is enabled. -/
theorem duplicate_leaves_ledger_unchanged (o : Options) (st : RunState)
    (f : SrcFile) (md : Metadata) (x : Row)
    (hphoto : isPhoto f.path = true)
    (hmd : f.metadataResult = Except.ok md)
    (hx : x ∈ st.db)
    (hdup : x.hash = sha256HexDigest (fingerprintData md)) :
    (processFile o st f).db = st.db ∧
    (processFile o st f).removed =
      (if o.deleteDuplicates then st.removed ++ [f.path] else st.removed) := by
  rw [processFile_dup o st f md x hphoto hmd hx hdup]
  exact ⟨rfl, rfl⟩

/-- C1 witness: the amended theorem applied in delete-duplicates mode to
the copy `fDatedA2` after `fDatedA` was classified. -/
theorem duplicate_leaves_ledger_unchanged_witness :
    (processFile optsDelete (runClassify optsDelete [fDatedA]) fDatedA2).db =
      (runClassify optsDelete [fDatedA]).db ∧
    (processFile optsDelete (runClassify optsDelete [fDatedA]) fDatedA2).removed =
      (if optsDelete.deleteDuplicates then
          (runClassify optsDelete [fDatedA]).removed ++ [fDatedA2.path]
        else (runClassify optsDelete [fDatedA]).removed) :=
  duplicate_leaves_ledger_unchanged optsDelete
    (runClassify optsDelete [fDatedA]) fDatedA2
    (mdPlain "CONTENTA" (some (TagValue.dt tsA)))
    ⟨sha256HexDigest "CONTENTA", "src/a.jpg", some (pyStr tsA),
      some "t/2012/2012-04/2012-04-09/2012_04_09-15_15_18.jpg", "READY", none⟩
    (by decide) rfl (by decide) (by decide)

/-- C9 counterexample: the ledger does NOT reject an insert whose
destination duplicates an existing READY row's destination: with a fresh
fingerprint and a fresh source path, the row is appended and the ledger
then holds two READY entries with the same destination — silently
accepted, not surfaced as an error (the sqlite schema has UNIQUE
constraints only on `hash` and `path`, not on `destination`). -/
theorem duplicate_destination_accepted_cex :
    insertOrIgnore [rowApplyA]
        ⟨"sha256:C", "src/c.jpg", some "2012-04-09 15:15:18",
          some "t/2012/2012-04/2012-04-09/a.jpg", "READY", none⟩ =
      [rowApplyA,
        ⟨"sha256:C", "src/c.jpg", some "2012-04-09 15:15:18",
          some "t/2012/2012-04/2012-04-09/a.jpg", "READY", none⟩] ∧
    rowApplyA.hash ≠ "sha256:C" ∧
    rowApplyA.status = "READY" ∧
    rowApplyA.destination = some "t/2012/2012-04/2012-04-09/a.jpg" := by
  decide

/-- C9 (amended): the ledger's unique-insert contract covers only the
fingerprint and source-path columns.  A row with a fresh fingerprint and a
fresh source path is always appended, even when its destination equals the
destination of an existing READY row: the insert is silently accepted and
both READY rows remain in the ledger, with no rejection or overwrite.
Destination uniqueness is only what the tie-break naming policy achieves
before insertion, not an enforced ledger constraint. -/
theorem ledger_accepts_duplicate_destination (db : List Row) (r x : Row)
    (hh : ∀ y ∈ db, y.hash ≠ r.hash)
    (hp : ∀ y ∈ db, y.path ≠ r.path)
    (hx : x ∈ db)
    (hdest : x.destination = r.destination)
    (hxs : x.status = "READY")
    (hrs : r.status = "READY") :
    insertOrIgnore db r = db ++ [r] ∧
    x ∈ insertOrIgnore db r ∧ r ∈ insertOrIgnore db r := by
  have he := insertOrIgnore_fresh hh hp
  refine ⟨he, ?_, ?_⟩
  · rw [he]
    exact List.mem_append_left _ hx
  · rw [he]
    exact List.mem_append_right _ (List.mem_singleton_self _)

/-- C9 witness: the amended theorem applied to a concrete one-row ledger
and a fresh-fingerprint row with the same destination. -/
theorem ledger_accepts_duplicate_destination_witness :
    insertOrIgnore [rowApplyA]
        ⟨"sha256:C", "src/c.jpg", some "2012-04-09 15:15:18",
          some "t/2012/2012-04/2012-04-09/a.jpg", "READY", none⟩ =
      [rowApplyA] ++
        [⟨"sha256:C", "src/c.jpg", some "2012-04-09 15:15:18",
          some "t/2012/2012-04/2012-04-09/a.jpg", "READY", none⟩] ∧
    rowApplyA ∈ insertOrIgnore [rowApplyA]
        ⟨"sha256:C", "src/c.jpg", some "2012-04-09 15:15:18",
          some "t/2012/2012-04/2012-04-09/a.jpg", "READY", none⟩ ∧
    (⟨"sha256:C", "src/c.jpg", some "2012-04-09 15:15:18",
        some "t/2012/2012-04/2012-04-09/a.jpg", "READY", none⟩ : Row) ∈
      insertOrIgnore [rowApplyA]
        ⟨"sha256:C", "src/c.jpg", some "2012-04-09 15:15:18",
          some "t/2012/2012-04/2012-04-09/a.jpg", "READY", none⟩ :=
  ledger_accepts_duplicate_destination [rowApplyA] _ rowApplyA
    (by decide) (by decide) (List.mem_singleton_self _) (by decide)
    (by decide) (by decide)

/-- C10 counterexample: with two READY entries where the first one's
filesystem action fails and the second one's would succeed, the apply
phase stops at the failure: it performs no further actions (the second
entry is never attempted, even though its action succeeds when invoked)
and the whole phase ends with the propagated error — the loop body of
src/albumiser.py lines 337-350 has no per-entry exception handling. -/
theorem apply_abort_cex :
    applyPhase [rowApplyA, rowApplyB] actFailA = ([], some "disk full") ∧
    actFailA rowApplyB = .ok () := by
  exact ⟨rfl, rfl⟩

/-- C10 (amended): the apply phase attempts entries in order and stops at
the first failing action: for every sequence of READY entries split as
`xs ++ f :: ys` where every action in `xs` succeeds and `f`'s action
fails, the apply loop performs exactly the actions of `xs` (prior
successes are kept, not unwound) and aborts with `f`'s error, never
attempting the entries of `ys`. -/
theorem apply_stops_at_first_failure (xs ys : List Row) (f : Row)
    (act : Row → Except String Unit) (e : String)
    (hok : ∀ r ∈ xs, act r = .ok ())
    (hf : act f = .error e) :
    applyGo act (xs ++ f :: ys) = (xs, some e) := by
  induction xs with
  | nil => simp [applyGo, hf]
  | cons a as ih =>
    have ha : act a = .ok () := hok a (List.mem_cons_self a as)
    have ih2 := ih (fun r hr => hok r (List.mem_cons_of_mem a hr))
    simp [applyGo, ha, ih2]

/-- C10 witness: the amended theorem applied to a concrete two-entry apply
with the first action failing. -/
theorem apply_stops_at_first_failure_witness :
    applyGo actFailA ([] ++ rowApplyA :: [rowApplyB]) = ([], some "disk full") :=
  apply_stops_at_first_failure [] [rowApplyB] rowApplyA actFailA "disk full"
    (by intro r hr; simp at hr) rfl

/-- C6: in any run state reached by classifying `files`, classifying a
further photo `f` that resolves to the real capture time `d` and is not a
duplicate appends exactly one READY row whose destination filename is the
formatted timestamp with an ordinal suffix equal to the number of READY
rows already sharing that exact `created` timestamp (`datedFilename`
yields no suffix for count 0, `.1` for count 1, `.2` for count 2, before
the extension).  The code counts rows with equal `created`
(src/albumiser.py lines 311-317); by the ledger invariant those are
exactly the prior READY rows with that timestamp. -/
theorem same_second_suffix_counts_ready (o : Options) (files : List SrcFile)
    (f : SrcFile) (md : Metadata) (d : PDateTime)
    (hphoto : isPhoto f.path = true)
    (hmd : f.metadataResult = Except.ok md)
    (hres : resolveCaptureTag md = some (TagValue.dt d))
    (hfresh : ∀ x ∈ (runClassify o files).db,
      x.hash ≠ sha256HexDigest (fingerprintData md))
    (hpath : ∀ x ∈ (runClassify o files).db, x.path ≠ f.path) :
    (processFile o (runClassify o files) f).db =
      (runClassify o files).db ++
        [⟨sha256HexDigest (fingerprintData md), f.path, some (pyStr d),
          some (pathJoin (dstDirOf o.target d)
            (datedFilename d
              ((runClassify o files).db.countP fun r =>
                decide (r.status = "READY" ∧ r.created = some (pyStr d)))
              (strLower (splitextExt f.path)))),
          "READY", none⟩] := by
  have hcr := createdReady_runClassify o files
  have hc : ((runClassify o files).db.countP fun r =>
        decide (r.created = some (pyStr d))) =
      ((runClassify o files).db.countP fun r =>
        decide (r.status = "READY" ∧ r.created = some (pyStr d))) := by
    apply List.countP_congr
    intro x hx
    simp only [decide_eq_true_eq]
    constructor
    · intro h
      refine ⟨hcr x hx ?_, h⟩
      rw [h]
      exact Option.some_ne_none _
    · intro h
      exact h.2
  rw [processFile_dated o (runClassify o files) f md d hphoto hmd hres
    hfresh hpath]
  rw [← hc]

/-- C6 witness: after classifying two distinct photos with capture time
`tsA`, a third photo with the same capture time gets suffix count 2
(destination `....2.jpg`). -/
theorem same_second_suffix_counts_ready_witness :
    (processFile optsRecord (runClassify optsRecord [fDatedA, fDatedB])
        fDatedC).db =
      (runClassify optsRecord [fDatedA, fDatedB]).db ++
        [⟨sha256HexDigest
            (fingerprintData (mdPlain "CONTENTC" (some (TagValue.dt tsA)))),
          fDatedC.path, some (pyStr tsA),
          some (pathJoin (dstDirOf optsRecord.target tsA)
            (datedFilename tsA
              ((runClassify optsRecord [fDatedA, fDatedB]).db.countP fun r =>
                decide (r.status = "READY" ∧ r.created = some (pyStr tsA)))
              (strLower (splitextExt fDatedC.path)))),
          "READY", none⟩] :=
  same_second_suffix_counts_ready optsRecord [fDatedA, fDatedB] fDatedC
    (mdPlain "CONTENTC" (some (TagValue.dt tsA))) tsA
    (by decide) rfl (by decide) (by decide) (by decide)

/-- C7 counterexample: the first undated file's destination filename is
`1970_01_01-00_00_00-1.jpg` — the counter is separated from the formatted
epoch timestamp by a hyphen, emitted by the format string
`'%Y_%m_%d-%H_%M_%S-'` of src/albumiser.py line 308, not by the underscore
of the claimed form `<epoch-formatted-timestamp>_<counter><ext>`. -/
theorem undated_separator_cex :
    (runClassify optsRecord [fUndatedA]).db.map (fun r => r.destination) =
      [some (undatedDest "t" 1 ".jpg")] ∧
    undatedDest "t" 1 ".jpg" =
      "t/1970/1970-01/1970-01-01/1970_01_01-00_00_00-1.jpg" ∧
    undatedFilename 1 ".jpg" ≠ specUndatedFilename 1 ".jpg" ∧
    specUndatedFilename 1 ".jpg" = "1970_01_01-00_00_00_1.jpg" ∧
    undatedFilename 1 ".jpg" = "1970_01_01-00_00_00-1.jpg" := by
  decide

/-- C7 (amended): every file with no resolvable capture timestamp receives
the synthetic epoch timestamp and a destination filename of the form
`<epoch-formatted-timestamp>-<undated-sequence-counter><ext>` (the
separator before the counter is a hyphen, not an underscore), where the
counter is the single run-global `undated_counter` incremented at each
undated file; hence two undated files classified at different points of
the same run receive distinct counters and distinct destination paths. -/
theorem undated_counter_distinct_destinations (o : Options)
    (files1 files2 : List SrcFile) (st1 st3 : RunState)
    (f1 f2 : SrcFile) (md1 md2 : Metadata)
    (hst1 : st1 = runClassify o files1)
    (hst3 : st3 = List.foldl (processFile o) (processFile o st1 f1) files2)
    (h1photo : isPhoto f1.path = true)
    (h1md : f1.metadataResult = Except.ok md1)
    (h1res : ∀ d : PDateTime, resolveCaptureTag md1 ≠ some (TagValue.dt d))
    (h1fresh : ∀ x ∈ st1.db, x.hash ≠ sha256HexDigest (fingerprintData md1))
    (h1path : ∀ x ∈ st1.db, x.path ≠ f1.path)
    (h2photo : isPhoto f2.path = true)
    (h2md : f2.metadataResult = Except.ok md2)
    (h2res : ∀ d : PDateTime, resolveCaptureTag md2 ≠ some (TagValue.dt d))
    (h2fresh : ∀ x ∈ st3.db, x.hash ≠ sha256HexDigest (fingerprintData md2))
    (h2path : ∀ x ∈ st3.db, x.path ≠ f2.path) :
    (processFile o st1 f1).undated = st1.undated + 1 ∧
    (processFile o st1 f1).db = st1.db ++
      [⟨sha256HexDigest (fingerprintData md1), f1.path, some (pyStr epoch),
        some (undatedDest o.target (st1.undated + 1)
          (strLower (splitextExt f1.path))), "READY", none⟩] ∧
    (processFile o st3 f2).undated = st3.undated + 1 ∧
    (processFile o st3 f2).db = st3.db ++
      [⟨sha256HexDigest (fingerprintData md2), f2.path, some (pyStr epoch),
        some (undatedDest o.target (st3.undated + 1)
          (strLower (splitextExt f2.path))), "READY", none⟩] ∧
    undatedDest o.target (st1.undated + 1) (strLower (splitextExt f1.path)) ≠
      undatedDest o.target (st3.undated + 1) (strLower (splitextExt f2.path)) := by
  have hp1 := processFile_undated o st1 f1 md1 h1photo h1md h1res h1fresh h1path
  have hp2 := processFile_undated o st3 f2 md2 h2photo h2md h2res h2fresh h2path
  have hlt : st1.undated + 1 ≤ st3.undated := by
    rw [hst3]
    calc st1.undated + 1 = (processFile o st1 f1).undated := by rw [hp1]
    _ ≤ _ := undated_le_foldl o files2 _
  refine ⟨by rw [hp1], by rw [hp1], by rw [hp2], by rw [hp2], ?_⟩
  intro hc
  have := undatedDest_inj (isPhoto_ext h1photo) (isPhoto_ext h2photo) hc
  omega

/-- C7 witness: a run with two undated files, one classified right after
the other: counters 1 and 2, destinations distinct. -/
theorem undated_counter_distinct_destinations_witness :
    (processFile optsRecord (runClassify optsRecord []) fUndatedA).undated =
      (runClassify optsRecord []).undated + 1 ∧
    (processFile optsRecord (runClassify optsRecord []) fUndatedA).db =
      (runClassify optsRecord []).db ++
        [⟨sha256HexDigest (fingerprintData (mdPlain "UBYTES1" none)),
          fUndatedA.path, some (pyStr epoch),
          some (undatedDest optsRecord.target
            ((runClassify optsRecord []).undated + 1)
            (strLower (splitextExt fUndatedA.path))), "READY", none⟩] ∧
    (processFile optsRecord
        (List.foldl (processFile optsRecord)
          (processFile optsRecord (runClassify optsRecord []) fUndatedA) [])
        fUndatedB).undated =
      (List.foldl (processFile optsRecord)
        (processFile optsRecord (runClassify optsRecord []) fUndatedA)
        []).undated + 1 ∧
    (processFile optsRecord
        (List.foldl (processFile optsRecord)
          (processFile optsRecord (runClassify optsRecord []) fUndatedA) [])
        fUndatedB).db =
      (List.foldl (processFile optsRecord)
        (processFile optsRecord (runClassify optsRecord []) fUndatedA)
        []).db ++
        [⟨sha256HexDigest (fingerprintData (mdPlain "UBYTES2" none)),
          fUndatedB.path, some (pyStr epoch),
          some (undatedDest optsRecord.target
            ((List.foldl (processFile optsRecord)
              (processFile optsRecord (runClassify optsRecord []) fUndatedA)
              []).undated + 1)
            (strLower (splitextExt fUndatedB.path))), "READY", none⟩] ∧
    undatedDest optsRecord.target ((runClassify optsRecord []).undated + 1)
        (strLower (splitextExt fUndatedA.path)) ≠
      undatedDest optsRecord.target
        ((List.foldl (processFile optsRecord)
          (processFile optsRecord (runClassify optsRecord []) fUndatedA)
          []).undated + 1)
        (strLower (splitextExt fUndatedB.path)) :=
  undated_counter_distinct_destinations optsRecord [] []
    (runClassify optsRecord [])
    (List.foldl (processFile optsRecord)
      (processFile optsRecord (runClassify optsRecord []) fUndatedA) [])
    fUndatedA fUndatedB (mdPlain "UBYTES1" none) (mdPlain "UBYTES2" none)
    rfl rfl (by decide) rfl (fun d h => Option.noConfusion h) (by decide)
    (by decide) (by decide) rfl (fun d h => Option.noConfusion h) (by decide)
    (by decide)

end Albumiser
